import Mathlib

/-!
# Verification of the g933-utils request/response correlation engine

A shallow embedding of the transport core of `libg933/src/lib.rs`:

* the 20-byte `Frame` and 4-byte `Header` data model,
* the shared correlation table (`RequestsMap = HashMap<[u8; 4], Sender<[u8; 20]>>`),
  modelled as an association list with HashMap lookup/insert/remove semantics,
* the listener thread spawned in `Device::new` (lines 63–89),
* the request engine `Device::raw_request` (lines 95–138),
* the paginated name read `Device::get_device_name` (lines 179–195).

Bytes are modelled as `Nat` (every value written by the source fits in a byte,
overflow never arises), frames as `List Nat`, channel identities as `Nat`.
-/

namespace G933

/-- A frame: the 20-byte `[u8; 20]` buffer exchanged with the device. -/
abbrev Frame := List Nat

/-- A header: the first 4 bytes of a frame, `[u8; 4]`, the correlation key. -/
abbrev Header := List Nat

/-- The correlation table `RequestsMap = HashMap<[u8; 4], Sender<[u8; 20]>>`,
modelled as an association list from header to channel identity. -/
abbrev Table := List (Header × Nat)

/-- `HashMap::contains_key` / `HashMap::get` semantics on the association list:
the value of the first (unique) entry whose key equals `h`. -/
def tableLookup : Table → Header → Option Nat
  | [], _ => none
  | (k, c) :: t, h => if k = h then some c else tableLookup t h

/-- `HashMap::remove` semantics: drop the entry keyed `h` (a no-op when absent). -/
def tableRemove (t : Table) (h : Header) : Table :=
  t.filter (fun e => e.1 ≠ h)

/-- `HashMap::insert` semantics: bind `h` to `c`, replacing any previous entry
for `h` (the source's `requests.insert(header, sender)`). -/
def tableInsert (t : Table) (h : Header) (c : Nat) : Table :=
  (h, c) :: tableRemove t h

theorem tableLookup_mem {t : Table} {h : Header} {c : Nat}
    (hl : tableLookup t h = some c) : (h, c) ∈ t := by
  induction t with
  | nil => simp [tableLookup] at hl
  | cons e t ih =>
    obtain ⟨k, c'⟩ := e
    by_cases hk : k = h
    · subst hk
      simp [tableLookup] at hl
      simp [hl]
    · simp [tableLookup, hk] at hl
      exact List.mem_cons_of_mem _ (ih hl)

theorem mem_tableRemove {t : Table} {h k : Header} {c : Nat}
    (hm : (k, c) ∈ tableRemove t h) : (k, c) ∈ t :=
  List.mem_of_mem_filter hm

theorem tableLookup_tableRemove_self (t : Table) (h : Header) :
    tableLookup (tableRemove t h) h = none := by
  induction t with
  | nil => rfl
  | cons e t ih =>
    obtain ⟨k, c⟩ := e
    by_cases hk : k = h
    · simpa [tableRemove, hk] using ih
    · simpa [tableRemove, tableLookup, hk] using ih

theorem tableLookup_tableRemove_ne (t : Table) {h k : Header} (hne : k ≠ h) :
    tableLookup (tableRemove t h) k = tableLookup t k := by
  induction t with
  | nil => rfl
  | cons e t ih =>
    obtain ⟨k', c⟩ := e
    by_cases hk : k' = h
    · subst hk
      have hxk : k' ≠ k := fun hx => hne hx.symm
      simp only [tableRemove, List.filter_cons] at *
      simp only [tableLookup, hxk, if_false]
      simpa [tableRemove] using ih
    · by_cases hkk : k' = k
      · subst hkk
        simp [tableRemove, tableLookup, hk]
      · simp only [tableRemove, List.filter_cons] at *
        simp only [hk, decide_False, Bool.not_false, if_true, tableLookup, hkk, if_false,
          decide_not]
        simpa [tableRemove] using ih

theorem tableRemove_of_lookup_none {t : Table} {h : Header}
    (hl : tableLookup t h = none) : tableRemove t h = t := by
  induction t with
  | nil => rfl
  | cons e t ih =>
    obtain ⟨k, c⟩ := e
    by_cases hk : k = h
    · simp [tableLookup, hk] at hl
    · simp [tableLookup, hk] at hl
      simp [tableRemove, hk]
      simpa [tableRemove] using ih hl

/-- Keys of the table are pairwise distinct (the HashMap representation
invariant: at most one entry per header). -/
def KeysDistinct (t : Table) : Prop :=
  (t.map Prod.fst).Nodup

theorem keysDistinct_nil : KeysDistinct [] := List.nodup_nil

theorem keysDistinct_tableRemove {t : Table} (hd : KeysDistinct t) (h : Header) :
    KeysDistinct (tableRemove t h) := by
  unfold KeysDistinct tableRemove at *
  exact (List.Sublist.map Prod.fst (List.filter_sublist t)).nodup hd

theorem keysDistinct_tableInsert {t : Table} (hd : KeysDistinct t)
    (h : Header) (c : Nat) : KeysDistinct (tableInsert t h c) := by
  unfold KeysDistinct tableInsert
  refine List.nodup_cons.mpr ⟨?_, keysDistinct_tableRemove hd h⟩
  intro hmem
  obtain ⟨⟨k, c'⟩, hmem', hk⟩ := List.mem_map.mp hmem
  have hne := List.of_mem_filter hmem'
  simp at hne
  exact hne hk

/-- `raw_request` line 100–101: `let mut data = [0u8; 20];
data[..request.len()].copy_from_slice(request);` — the request zero-padded
to a 20-byte frame. -/
def padFrame (request : List Nat) : Frame :=
  request ++ List.replicate (20 - request.length) 0

theorem padFrame_length {request : List Nat} (h : request.length ≤ 20) :
    (padFrame request).length = 20 := by
  simp [padFrame]
  omega

/-! ## The concurrent correlation engine

`Device::new` spawns a listener thread (lines 63–89) sharing
`Arc<Mutex<RequestsMap>>` with every thread running `raw_request`
(lines 95–138).  We model the interleaving of those threads as a labelled
transition system.  Each transition is one lock-protected critical section
(or, for the requester, one phase boundary) of the source:

* the duplicate-suppression spin loop (lines 104–110) acquires the lock,
  checks `contains_key`, and releases the lock on `break`;
* the registration block (lines 115–121) re-acquires the lock, inserts the
  header, and releases the lock — a *separate* critical section;
* one listener iteration (lines 68–88) holds the lock for its whole body:
  empty-check, read, remove and send happen atomically with respect to the
  table. -/

/-- Phase of a thread running `raw_request`, past the length check:
`checking` = in the spin loop (lines 104–110); `registering` = after
`break`, the check lock released, the insert lock not yet taken;
`sending` = header registered, in the write/receive loop (lines 123–137). -/
inductive RPhase
  | checking
  | registering
  | sending
  deriving DecidableEq

/-- One result of the listener's `file.read`: `none` models a read returning
0 bytes, `some f` a read filling the 20-byte buffer with frame `f`. -/
abbrev ReadResult := Option Frame

/-- Global state of the engine: the phase of every requester thread
(requester `i` owns delivery channel `i`), the shared correlation table,
the stream of pending device reads, and the log of `sender.send` events. -/
structure Sys where
  phases : List RPhase
  table : Table
  input : List ReadResult
  delivered : List (Nat × Frame)
  deriving DecidableEq

/-- Transition labels: which thread moved, and how. -/
inductive Lab
  | check (i : Nat)
  | reg (i : Nat)
  | rdZero
  | rdMatch (f : Frame) (c : Nat)
  | rdDrop (f : Frame)
  deriving DecidableEq

/-- Interleaving semantics, parameterised by the (constant) padded frame of
each requester thread.

* `checkPass i`: a spin-loop iteration (lines 104–110) finds no entry for
  the header and `break`s, dropping the lock guard.
* `register i`: the block at lines 115–121 — `requests.insert(header, sender)`
  under a freshly acquired lock.  Note there is no precondition on the table:
  the source re-checks nothing here, and `insert` replaces any entry.
* `readZero`: a listener iteration whose `file.read` returns 0 bytes; the
  short-circuit `requests.is_empty() || file.read(..) == 0` means any read is
  attempted only when the table is non-empty.
* `readMatch`: a listener iteration reads frame `f` and
  `requests.remove(&data[..4])` finds channel `c`: the entry is removed and
  `f` is sent to `c`.
* `readDrop`: a listener iteration reads `f` but no entry matches: the frame
  is dropped.

A spin-loop iteration that finds an entry present leaves the state unchanged
(the thread sleeps and re-checks), so it is not a distinct transition. -/
inductive Step (frames : Nat → Frame) : Sys → Lab → Sys → Prop
  | checkPass (s : Sys) (i : Nat) :
      s.phases[i]? = some .checking →
      tableLookup s.table ((frames i).take 4) = none →
      Step frames s (.check i) { s with phases := s.phases.set i .registering }
  | register (s : Sys) (i : Nat) :
      s.phases[i]? = some .registering →
      Step frames s (.reg i) { s with
        phases := s.phases.set i .sending,
        table := tableInsert s.table ((frames i).take 4) i }
  | readZero (s : Sys) (rest : List ReadResult) :
      s.table ≠ [] →
      s.input = none :: rest →
      Step frames s .rdZero { s with input := rest }
  | readMatch (s : Sys) (f : Frame) (rest : List ReadResult) (c : Nat) :
      s.table ≠ [] →
      s.input = some f :: rest →
      tableLookup s.table (f.take 4) = some c →
      Step frames s (.rdMatch f c) { s with
        input := rest,
        table := tableRemove s.table (f.take 4),
        delivered := (c, f) :: s.delivered }
  | readDrop (s : Sys) (f : Frame) (rest : List ReadResult) :
      s.table ≠ [] →
      s.input = some f :: rest →
      tableLookup s.table (f.take 4) = none →
      Step frames s (.rdDrop f) { s with input := rest }

/-- Some thread takes some step. -/
def StepAny (frames : Nat → Frame) (s s' : Sys) : Prop :=
  ∃ l, Step frames s l s'

/-- Executions: reflexive-transitive closure of the interleaving relation. -/
def Reaches (frames : Nat → Frame) : Sys → Sys → Prop :=
  Relation.ReflTransGen (StepAny frames)

/-- Engine invariant: table keys are pairwise distinct; every table entry
binds a header to the channel of the requester whose frame starts with that
header; every delivered frame went to the channel that was registered under
the frame's own first 4 bytes. -/
structure Inv (frames : Nat → Frame) (s : Sys) : Prop where
  distinct : KeysDistinct s.table
  tableKeys : ∀ k c, (k, c) ∈ s.table → k = (frames c).take 4
  deliveredKeys : ∀ c f, (c, f) ∈ s.delivered → f.take 4 = (frames c).take 4

theorem Inv.step {frames : Nat → Frame} {s : Sys} {l : Lab} {s' : Sys}
    (hi : Inv frames s) (hs : Step frames s l s') : Inv frames s' := by
  cases hs with
  | checkPass i h1 h2 =>
    exact ⟨hi.distinct, hi.tableKeys, hi.deliveredKeys⟩
  | register i h1 =>
    refine ⟨keysDistinct_tableInsert hi.distinct _ _, ?_, hi.deliveredKeys⟩
    intro k c hm
    rcases List.mem_cons.mp hm with heq | hm'
    · obtain ⟨hk, hc⟩ := Prod.mk.injEq .. ▸ heq
      subst hc
      exact hk
    · exact hi.tableKeys k c (mem_tableRemove hm')
  | readZero rest h1 h2 =>
    exact ⟨hi.distinct, hi.tableKeys, hi.deliveredKeys⟩
  | readMatch f rest c h1 h2 h3 =>
    refine ⟨keysDistinct_tableRemove hi.distinct _, ?_, ?_⟩
    · intro k c' hm
      exact hi.tableKeys k c' (mem_tableRemove hm)
    · intro c' f' hm
      rcases List.mem_cons.mp hm with heq | hm'
      · obtain ⟨hc, hf⟩ := Prod.mk.injEq .. ▸ heq
        subst hc hf
        exact hi.tableKeys _ _ (tableLookup_mem h3)
      · exact hi.deliveredKeys c' f' hm'
  | readDrop f rest h1 h2 h3 =>
    exact ⟨hi.distinct, hi.tableKeys, hi.deliveredKeys⟩

theorem Inv.reaches {frames : Nat → Frame} {s0 s : Sys}
    (hi : Inv frames s0) (hr : Reaches frames s0 s) : Inv frames s := by
  induction hr with
  | refl => exact hi
  | tail _ hstep ih =>
    obtain ⟨l, hstep⟩ := hstep
    exact ih.step hstep

/-- Any state with an empty table and an empty delivery log — in particular
the state just after `Device::new` — satisfies the invariant. -/
theorem Inv.init (frames : Nat → Frame) {s : Sys}
    (ht : s.table = []) (hd : s.delivered = []) : Inv frames s := by
  refine ⟨?_, ?_, ?_⟩
  · rw [ht]; exact keysDistinct_nil
  · intro k c hm; rw [ht] at hm; cases hm
  · intro c f hm; rw [hd] at hm; cases hm

theorem keysDistinct_step {frames : Nat → Frame} {s : Sys} {l : Lab} {s' : Sys}
    (hd : KeysDistinct s.table) (hs : Step frames s l s') : KeysDistinct s'.table := by
  cases hs with
  | checkPass i h1 h2 => exact hd
  | register i h1 => exact keysDistinct_tableInsert hd _ _
  | readZero rest h1 h2 => exact hd
  | readMatch f rest c h1 h2 h3 => exact keysDistinct_tableRemove hd _
  | readDrop f rest h1 h2 h3 => exact hd

theorem keysDistinct_reaches {frames : Nat → Frame} {s0 s : Sys}
    (hd : KeysDistinct s0.table) (hr : Reaches frames s0 s) : KeysDistinct s.table := by
  induction hr with
  | refl => exact hd
  | tail _ hstep ih =>
    obtain ⟨l, hstep⟩ := hstep
    exact keysDistinct_step ih hstep

/-- The listener's poll interval: `thread::sleep(Duration::from_millis(100))`
at line 69. -/
def listenerPollMillis : Nat := 100

/-- The spin loop's sleep: `thread::sleep(Duration::from_millis(100))` at
line 109. -/
def spinSleepMillis : Nat := 100

/-- The per-wait timeout of the write/receive loop:
`receiver.recv_timeout(Duration::from_secs(2))` at line 132. -/
def recvTimeoutSecs : Nat := 2

/-! ## Concrete scenarios used as witnesses -/

/-- The battery-status header `[0x11, 0xff, 0x08, 0x01]` (line 261). -/
def exHdr : Header := [0x11, 0xff, 0x08, 0x01]

/-- A single requester thread sending the padded battery-status request. -/
def exFrames : Nat → Frame := fun _ => padFrame exHdr

/-- A device response frame carrying the battery-status header. -/
def exResp : Frame := exHdr ++ 0x03 :: 0x64 :: List.replicate 14 0

/-- A pending battery-status request: channel 0 registered, response queued. -/
def exS : Sys :=
  { phases := [.sending], table := [(exHdr, 0)], input := [some exResp],
    delivered := [] }

/-- An unsolicited frame: a button event header nobody registered. -/
def exUnsolicited : Frame := 0x11 :: 0xff :: 0x05 :: 0x00 :: List.replicate 16 0

/-- Same pending request, but the device produces an unsolicited frame. -/
def exSDrop : Sys := { exS with input := [some exUnsolicited] }

/-- Same pending request, but the next read returns 0 bytes. -/
def exSZero : Sys := { exS with input := [none] }

/-- **C3.**  A frame read by the listener whose first 4 bytes match a table
key is delivered exactly once to the registered endpoint, the matching entry
is removed, no entry remains for that header afterwards, other entries are
untouched, and the delivering transition is unique. -/
theorem listener_matched_frame_delivered_once (frames : Nat → Frame) (s : Sys)
    (f : Frame) (rest : List ReadResult) (c : Nat)
    (hne : s.table ≠ []) (hin : s.input = some f :: rest)
    (hl : tableLookup s.table (f.take 4) = some c) :
    ∃ s', Step frames s (.rdMatch f c) s' ∧
      s'.delivered = (c, f) :: s.delivered ∧
      tableLookup s'.table (f.take 4) = none ∧
      (∀ k, k ≠ f.take 4 → tableLookup s'.table k = tableLookup s.table k) ∧
      (∀ c' s'', Step frames s (.rdMatch f c') s'' → c' = c ∧ s'' = s') := by
  refine ⟨_, Step.readMatch s f rest c hne hin hl, rfl, ?_, ?_, ?_⟩
  · exact tableLookup_tableRemove_self _ _
  · intro k hk
    exact tableLookup_tableRemove_ne _ hk
  · intro c' s'' hstep
    cases hstep with
    | readMatch f2 rest' c2 h1 h2 h3 =>
      have hc : c' = c := Option.some.inj (h3.symm.trans hl)
      have hr : rest' = rest := (List.cons.inj (h2.symm.trans hin)).2
      subst hc hr
      exact ⟨rfl, rfl⟩

/-- Witness for C3: the queued battery response is delivered to channel 0 and
the battery entry disappears from the table. -/
theorem listener_matched_frame_delivered_once_witness :
    ∃ s', Step exFrames exS (.rdMatch exResp 0) s' ∧
      s'.delivered = (0, exResp) :: exS.delivered ∧
      tableLookup s'.table (exResp.take 4) = none ∧
      (∀ k, k ≠ exResp.take 4 → tableLookup s'.table k = tableLookup exS.table k) ∧
      (∀ c' s'', Step exFrames exS (.rdMatch exResp c') s'' → c' = 0 ∧ s'' = s') :=
  listener_matched_frame_delivered_once exFrames exS exResp [] 0
    (by decide) rfl (by decide)

/-- **C4.**  A frame read by the listener with no matching table key is
discarded: nothing is delivered, the table and every pending request are
unaffected, and no delivering transition for that frame exists. -/
theorem listener_unmatched_frame_dropped (frames : Nat → Frame) (s : Sys)
    (f : Frame) (rest : List ReadResult)
    (hne : s.table ≠ []) (hin : s.input = some f :: rest)
    (hl : tableLookup s.table (f.take 4) = none) :
    ∃ s', Step frames s (.rdDrop f) s' ∧
      s'.delivered = s.delivered ∧
      s'.table = s.table ∧
      s'.phases = s.phases ∧
      (∀ c s'', ¬ Step frames s (.rdMatch f c) s'') := by
  refine ⟨_, Step.readDrop s f rest hne hin hl, rfl, rfl, rfl, ?_⟩
  intro c s'' hstep
  cases hstep with
  | readMatch f2 rest' c2 h1 h2 h3 =>
    rw [h3] at hl
    cases hl

/-- Witness for C4: the unsolicited button frame is dropped and the pending
battery entry survives untouched. -/
theorem listener_unmatched_frame_dropped_witness :
    ∃ s', Step exFrames exSDrop (.rdDrop exUnsolicited) s' ∧
      s'.delivered = exSDrop.delivered ∧
      s'.table = exSDrop.table ∧
      s'.phases = exSDrop.phases ∧
      (∀ c s'', ¬ Step exFrames exSDrop (.rdMatch exUnsolicited c) s'') :=
  listener_unmatched_frame_dropped exFrames exSDrop exUnsolicited []
    (by decide) rfl (by decide)

/-- **C8.**  After each fixed 100 ms poll sleep, a device read is only
attempted when the correlation table is non-empty (an empty table leaves the
input stream and the delivery log untouched), and a zero-byte read ends the
cycle with no table mutation and no delivery. -/
theorem listener_poll_cycle (frames : Nat → Frame) (s : Sys) (l : Lab) (s' : Sys)
    (hstep : Step frames s l s') :
    (s.table = [] → s'.input = s.input ∧ s'.delivered = s.delivered) ∧
    (∀ rest, l = .rdZero → s.input = none :: rest →
      s'.table = s.table ∧ s'.delivered = s.delivered ∧ s'.phases = s.phases ∧
      s'.input = rest) ∧
    listenerPollMillis = 100 := by
  refine ⟨?_, ?_, rfl⟩
  · intro hemp
    cases hstep with
    | checkPass i h1 h2 => exact ⟨rfl, rfl⟩
    | register i h1 => exact ⟨rfl, rfl⟩
    | readZero rest h1 h2 => exact absurd hemp h1
    | readMatch f rest c h1 h2 h3 => exact absurd hemp h1
    | readDrop f rest h1 h2 h3 => exact absurd hemp h1
  · intro rest hlab hin
    subst hlab
    cases hstep with
    | readZero rest' h1 h2 =>
      have hr : rest' = rest := (List.cons.inj (h2.symm.trans hin)).2
      subst hr
      exact ⟨rfl, rfl, rfl, rfl⟩

/-- Witness for C8: a zero-byte read in the battery scenario consumes the
read result and changes nothing else. -/
theorem listener_poll_cycle_witness :
    (exSZero.table = [] →
      ({ exSZero with input := ([] : List ReadResult) }).input = exSZero.input ∧
      ({ exSZero with input := ([] : List ReadResult) }).delivered = exSZero.delivered) ∧
    (∀ rest, Lab.rdZero = .rdZero → exSZero.input = none :: rest →
      ({ exSZero with input := ([] : List ReadResult) }).table = exSZero.table ∧
      ({ exSZero with input := ([] : List ReadResult) }).delivered = exSZero.delivered ∧
      ({ exSZero with input := ([] : List ReadResult) }).phases = exSZero.phases ∧
      ({ exSZero with input := ([] : List ReadResult) }).input = rest) ∧
    listenerPollMillis = 100 :=
  listener_poll_cycle exFrames exSZero .rdZero _
    (Step.readZero exSZero [] (by decide) rfl)

/-! ## The duplicate-suppression race (claim C1)

The spin loop (lines 104–110) releases its lock guard when it `break`s, and
the insert (lines 115–121) happens under a *second*, freshly acquired lock.
Two threads running `raw_request` with the same header can therefore both
pass the `contains_key` check before either inserts. -/

/-- The sidetone header `[0x11, 0xff, 0x07, 0x11]` (line 244), used by both
racing requesters. -/
def raceHdr : Header := [0x11, 0xff, 0x07, 0x11]

/-- Two requester threads sending byte-identical frames. -/
def raceFrames : Nat → Frame := fun _ => padFrame raceHdr

/-- Both requesters have passed the length check and sit in the spin loop;
no request is in flight. -/
def raceS0 : Sys :=
  { phases := [.checking, .checking], table := [], input := [], delivered := [] }

/-- Requester 0's check finds no entry and `break`s (its lock is dropped). -/
def raceS1 : Sys := { raceS0 with phases := raceS0.phases.set 0 .registering }

/-- Requester 1's check also finds no entry: requester 0 has not yet
re-acquired the lock to insert. -/
def raceS2 : Sys := { raceS1 with phases := raceS1.phases.set 1 .registering }

/-- Requester 0 inserts its endpoint under the shared header. -/
def raceS3 : Sys :=
  { raceS2 with
    phases := raceS2.phases.set 0 RPhase.sending
    table := tableInsert raceS2.table ((raceFrames 0).take 4) 0 }

/-- Requester 1 inserts its endpoint, replacing requester 0's entry. -/
def raceS4 : Sys :=
  { raceS3 with
    phases := raceS3.phases.set 1 RPhase.sending
    table := tableInsert raceS3.table ((raceFrames 1).take 4) 1 }

/-- **C1 counterexample.**  From an idle engine, two `raw_request` threads
with the same first 4 bytes reach a state (`raceS3`) in which the first
request's entry is still in the table (channel 0, not yet removed) and the
second thread then performs its registration step, leaving its own endpoint
(channel 1) registered instead: the second call registers *before* the first
request's entry has been removed, so the check-then-insert sequence is not
atomic with respect to other registrants. -/
theorem raw_request_register_race :
    Reaches raceFrames raceS0 raceS3 ∧
    (raceFrames 1).take 4 = (raceFrames 0).take 4 ∧
    tableLookup raceS3.table ((raceFrames 1).take 4) = some 0 ∧
    Step raceFrames raceS3 (.reg 1) raceS4 ∧
    tableLookup raceS4.table ((raceFrames 1).take 4) = some 1 := by
  refine ⟨?_, by decide, by decide, ?_, by decide⟩
  · exact Relation.ReflTransGen.tail
      (Relation.ReflTransGen.tail
        (Relation.ReflTransGen.tail Relation.ReflTransGen.refl
          ⟨_, Step.checkPass raceS0 0 (by decide) (by decide)⟩)
        ⟨_, Step.checkPass raceS1 1 (by decide) (by decide)⟩)
      ⟨_, Step.register raceS2 0 (by decide)⟩
  · exact Step.register raceS3 1 (by decide)

/-- **C1 (amended).**  Along any execution started with an empty table, the
table never holds two entries for one header, and a requester leaves the
spin loop only at an instant when no entry for its header is present.  The
check and the insert are however two *separate* lock scopes, and
`raw_request_register_race` exhibits a second same-header registrant
registering between another registrant's check and insert, replacing its
endpoint. -/
theorem raw_request_duplicate_suppression (frames : Nat → Frame)
    (s0 s : Sys) (hs0 : s0.table = []) (hr : Reaches frames s0 s) :
    KeysDistinct s.table ∧
    (∀ i s', Step frames s (.check i) s' →
      tableLookup s.table ((frames i).take 4) = none) := by
  refine ⟨keysDistinct_reaches ?_ hr, ?_⟩
  · rw [hs0]
    exact keysDistinct_nil
  · intro i s' hstep
    cases hstep with
    | checkPass i2 h1 h2 => exact h2

/-- Witness for the amended C1, at the idle two-requester state. -/
theorem raw_request_duplicate_suppression_witness :
    KeysDistinct raceS0.table ∧
    (∀ i s', Step raceFrames raceS0 (.check i) s' →
      tableLookup raceS0.table ((raceFrames i).take 4) = none) :=
  raw_request_duplicate_suppression raceFrames raceS0 raceS0 rfl
    Relation.ReflTransGen.refl

/-! ## Correlation of responses (claim C10) -/

/-- **C10.**  Every frame delivered to a requester's channel carries exactly
the first 4 bytes of the frame that requester sent: the listener removes and
delivers only under the 4-byte key registered for that request, so a
successful `raw_request` returns a response whose first 4 bytes equal those
of the request frame. -/
theorem raw_request_response_header_matches (frames : Nat → Frame)
    (s0 s : Sys) (ht : s0.table = []) (hd : s0.delivered = [])
    (hr : Reaches frames s0 s) (c : Nat) (f : Frame)
    (hm : (c, f) ∈ s.delivered) : f.take 4 = (frames c).take 4 :=
  ((Inv.init frames ht hd).reaches hr).deliveredKeys c f hm

/-- Idle engine with one battery-status requester and a queued response. -/
def wS0 : Sys :=
  { phases := [.checking], table := [], input := [some exResp], delivered := [] }

/-- The requester's check passes. -/
def wS1 : Sys := { wS0 with phases := wS0.phases.set 0 .registering }

/-- The requester registers channel 0 under its header. -/
def wS2 : Sys :=
  { wS1 with
    phases := wS1.phases.set 0 RPhase.sending
    table := tableInsert wS1.table ((exFrames 0).take 4) 0 }

/-- The listener reads the response and delivers it to channel 0. -/
def wS3 : Sys :=
  { wS2 with
    input := []
    table := tableRemove wS2.table (exResp.take 4)
    delivered := (0, exResp) :: wS2.delivered }

/-- Witness for C10: the delivered battery response starts with the battery
request's header. -/
theorem raw_request_response_header_matches_witness :
    exResp.take 4 = (exFrames 0).take 4 :=
  raw_request_response_header_matches exFrames wS0 wS3 rfl rfl
    (Relation.ReflTransGen.tail
      (Relation.ReflTransGen.tail
        (Relation.ReflTransGen.tail Relation.ReflTransGen.refl
          ⟨_, Step.checkPass wS0 0 (by decide) (by decide)⟩)
        ⟨_, Step.register wS1 0 (by decide)⟩)
      ⟨_, Step.readMatch wS2 exResp [] 0 (by decide) rfl (by decide)⟩)
    0 exResp (by decide)

/-! ## The write/receive loop (lines 123–137)

`loop { self.file.write_all(&data)?; … match receiver.recv_timeout(2 s) {
Ok(response) => return Ok(response), Err(Timeout) => (), Err(error) =>
return Err(error.into()) } }`, driven by what each iteration observes. -/

/-- What one iteration of the loop observes: `write_all` fails, or it
succeeds and `recv_timeout` delivers a response, times out, or reports the
channel disconnected. -/
inductive IterObs
  | writeFail
  | delivered (f : Frame)
  | timedOut
  | disconnected
  deriving DecidableEq

/-- How the loop exits: `return Ok(response)`, the `?` on `write_all`, or
`return Err(error.into())` on a disconnected channel. -/
inductive RRExit
  | ok (f : Frame)
  | writeError
  | chanClosed
  deriving DecidableEq

/-- The loop at lines 123–137: each iteration writes `data` (unchanged from
iteration to iteration) and inspects one observation.  Returns the frames
successfully written and the exit — `none` when the supplied observations
run out with the loop still running. -/
def sendLoop (data : Frame) : List IterObs → List Frame × Option RRExit
  | [] => ([], none)
  | .writeFail :: _ => ([], some .writeError)
  | .delivered f :: _ => ([data], some (.ok f))
  | .disconnected :: _ => ([data], some .chanClosed)
  | .timedOut :: rest =>
    let r := sendLoop data rest
    (data :: r.1, r.2)

theorem sendLoop_writes_eq {data : Frame} {obs : List IterObs} {w : Frame}
    (hw : w ∈ (sendLoop data obs).1) : w = data := by
  induction obs with
  | nil => cases hw
  | cons o rest ih =>
    cases o with
    | writeFail => cases hw
    | delivered f =>
      rcases List.mem_singleton.mp hw with h
      exact h
    | disconnected =>
      rcases List.mem_singleton.mp hw with h
      exact h
    | timedOut =>
      rcases List.mem_cons.mp hw with h | h
      · exact h
      · exact ih h

theorem sendLoop_timeouts (data : Frame) (n : Nat) :
    sendLoop data (List.replicate n .timedOut) = (List.replicate n data, none) := by
  induction n with
  | zero => rfl
  | succ n ih => simp [List.replicate_succ, sendLoop, ih]

/-- **C5 counterexample.**  The loop does not exit only via a delivered
frame or a channel hard failure: a failing `write_all` (line 124, `?`)
also exits it, with a write error and zero waits. -/
theorem sendLoop_write_failure_exit :
    sendLoop (padFrame [0x11, 0xff, 0x08, 0x01]) [.writeFail]
      = ([], some .writeError) ∧
    RRExit.writeError ≠ RRExit.chanClosed ∧
    RRExit.writeError ≠ RRExit.ok (padFrame [0x11, 0xff, 0x08, 0x01]) := by
  refine ⟨rfl, by decide, by decide⟩

/-- **C5 (amended).**  Each wait is bounded by the fixed 2-second
`recv_timeout`; on timeout the loop rewrites the byte-identical frame and
waits again, with no maximum attempt count or overall deadline (after `n`
timeouts it is still running, having written `n` identical frames); and it
exits only by returning a delivered frame, by propagating a channel
hard-failure error, or by propagating a device write error. -/
theorem sendLoop_retry_forever (data : Frame) (obs : List IterObs) (n : Nat)
    (e : RRExit) (he : (sendLoop data obs).2 = some e) :
    recvTimeoutSecs = 2 ∧
    (∀ w ∈ (sendLoop data obs).1, w = data) ∧
    sendLoop data (List.replicate n .timedOut) = (List.replicate n data, none) ∧
    ((∃ f, e = .ok f ∧ .delivered f ∈ obs) ∨
      (e = .writeError ∧ .writeFail ∈ obs) ∨
      (e = .chanClosed ∧ .disconnected ∈ obs)) := by
  refine ⟨rfl, fun w hw => sendLoop_writes_eq hw, sendLoop_timeouts data n, ?_⟩
  induction obs with
  | nil => cases he
  | cons o rest ih =>
    cases o with
    | writeFail =>
      refine Or.inr (Or.inl ⟨?_, List.mem_cons_self _ _⟩)
      cases he
      rfl
    | delivered f =>
      refine Or.inl ⟨f, ?_, List.mem_cons_self _ _⟩
      cases he
      rfl
    | disconnected =>
      refine Or.inr (Or.inr ⟨?_, List.mem_cons_self _ _⟩)
      cases he
      rfl
    | timedOut =>
      rcases ih he with ⟨f, hf, hm⟩ | ⟨hf, hm⟩ | ⟨hf, hm⟩
      · exact Or.inl ⟨f, hf, List.mem_cons_of_mem _ hm⟩
      · exact Or.inr (Or.inl ⟨hf, List.mem_cons_of_mem _ hm⟩)
      · exact Or.inr (Or.inr ⟨hf, List.mem_cons_of_mem _ hm⟩)

/-- Witness for the amended C5: one timeout then a delivered battery
response — both writes are the identical padded frame and the exit carries
the delivered frame. -/
theorem sendLoop_retry_forever_witness :
    recvTimeoutSecs = 2 ∧
    (∀ w ∈ (sendLoop (padFrame exHdr) [.timedOut, .delivered exResp]).1,
      w = padFrame exHdr) ∧
    sendLoop (padFrame exHdr) (List.replicate 3 .timedOut)
      = (List.replicate 3 (padFrame exHdr), none) ∧
    ((∃ f, RRExit.ok exResp = .ok f ∧
        .delivered f ∈ [IterObs.timedOut, .delivered exResp]) ∨
      (RRExit.ok exResp = .writeError ∧
        .writeFail ∈ [IterObs.timedOut, .delivered exResp]) ∨
      (RRExit.ok exResp = .chanClosed ∧
        .disconnected ∈ [IterObs.timedOut, .delivered exResp])) :=
  sendLoop_retry_forever (padFrame exHdr) [.timedOut, .delivered exResp] 3
    (.ok exResp) rfl

/-! ## `raw_request` front end (lines 95–121) -/

/-- Outcome of `raw_request`: `Ok(response)`, the `ensure!` failure at
line 98, a write error, or the channel hard failure. -/
inductive RROut
  | response (f : Frame)
  | invalidRequest
  | writeError
  | chanClosed
  deriving DecidableEq

/-- The observable effects of one `raw_request` call. -/
structure RRTrace where
  writes : List Frame
  registered : Option Header
  result : Option RROut
  deriving DecidableEq

/-- `Device::raw_request` (lines 95–138) in the absence of concurrent
same-header traffic: the guard `ensure!(request.len() <= 20, "Request is
longer than 20 bytes")` fires before anything else; otherwise the request is
zero-padded to 20 bytes, its first 4 bytes are registered in the table
(lines 112–121), and the write/receive loop runs. -/
def raw_request (request : List Nat) (obs : List IterObs) : RRTrace :=
  if request.length ≤ 20 then
    let data := padFrame request
    let r := sendLoop data obs
    { writes := r.1
      registered := some (data.take 4)
      result := r.2.map (fun e =>
        match e with
        | .ok f => RROut.response f
        | .writeError => RROut.writeError
        | .chanClosed => RROut.chanClosed) }
  else
    { writes := [], registered := none, result := some .invalidRequest }

/-- **C6.**  A request longer than 20 bytes is rejected with the
invalid-request error before any device write and before any table
registration; a request of length at most 20 proceeds past the check: its
header is registered and its outcome is never the invalid-request error. -/
theorem raw_request_length_guard (request : List Nat) (obs : List IterObs) :
    (20 < request.length →
      raw_request request obs
        = { writes := [], registered := none, result := some .invalidRequest }) ∧
    (request.length ≤ 20 →
      (raw_request request obs).registered = some ((padFrame request).take 4) ∧
      (raw_request request obs).result ≠ some RROut.invalidRequest) := by
  constructor
  · intro hgt
    have : ¬ request.length ≤ 20 := by omega
    simp [raw_request, this]
  · intro hle
    refine ⟨by simp [raw_request, hle], ?_⟩
    simp only [raw_request, hle, if_true]
    cases hs : (sendLoop (padFrame request) obs).2 with
    | none => simp
    | some e => cases e <;> simp [hs]

/-- Witness for C6: a 21-byte request is rejected cold; the 4-byte battery
request proceeds to registration. -/
theorem raw_request_length_guard_witness :
    (20 < (List.replicate 21 0).length →
      raw_request (List.replicate 21 0) []
        = { writes := [], registered := none, result := some .invalidRequest }) ∧
    ((List.replicate 21 0).length ≤ 20 →
      (raw_request (List.replicate 21 0) []).registered
        = some ((padFrame (List.replicate 21 0)).take 4) ∧
      (raw_request (List.replicate 21 0) []).result ≠ some RROut.invalidRequest) :=
  raw_request_length_guard (List.replicate 21 0) []

/-- **C9.**  For a request of length `n ≤ 20`, every frame the engine writes
is exactly 20 bytes: the request in positions `[0..n)`, zeroes in
`[n..20)`; and the header registered is exactly the first 4 bytes of that
frame. -/
theorem raw_request_frame_layout (request : List Nat) (obs : List IterObs)
    (hlen : request.length ≤ 20) :
    ∀ w ∈ (raw_request request obs).writes,
      w.length = 20 ∧
      w.take request.length = request ∧
      w.drop request.length = List.replicate (20 - request.length) 0 ∧
      (raw_request request obs).registered = some (w.take 4) := by
  intro w hw
  have hw' : w ∈ (sendLoop (padFrame request) obs).1 := by
    simpa [raw_request, hlen] using hw
  have hwd : w = padFrame request := sendLoop_writes_eq hw'
  subst hwd
  refine ⟨padFrame_length hlen, ?_, ?_, by simp [raw_request, hlen]⟩
  · simp [padFrame]
  · simp [padFrame]

/-- Witness for C9 at the 4-byte battery request, one timeout then an
answer: the first of the two identical writes. -/
theorem raw_request_frame_layout_witness :
    (padFrame exHdr).length = 20 ∧
    (padFrame exHdr).take exHdr.length = exHdr ∧
    (padFrame exHdr).drop exHdr.length = List.replicate (20 - exHdr.length) 0 ∧
    (raw_request exHdr [.timedOut, .delivered exResp]).registered
      = some ((padFrame exHdr).take 4) :=
  raw_request_frame_layout exHdr [.timedOut, .delivered exResp] (by decide)
    (padFrame exHdr) (by decide)

/-! ## `get_device_name` (lines 179–195) -/

/-- The name-length request `[0x11, 0xff, 0x03, 0x01]` (line 180), as the
padded frame `raw_request` writes. -/
def nameLenReq : Frame := padFrame [0x11, 0xff, 0x03, 0x01]

/-- The page request `[0x11, 0xff, 0x03, 0x11, i]` (line 185): the page
index `i` rides in byte 4. -/
def namePageReq (i : Nat) : Frame := padFrame [0x11, 0xff, 0x03, 0x11, i]

/-- Bytes `[4..20)` of a response frame: the slice
`&self.raw_request(&request)?[4..20]` at line 186. -/
def respPayload (f : Frame) : List Nat := (f.drop 4).take 16

/-- `name.trim_right_matches('\0')` (line 192) on the byte level: strip
trailing NUL bytes. -/
def trimTrailingZeros (l : List Nat) : List Nat :=
  (l.reverse.dropWhile (fun b => b = 0)).reverse

/-- `Device::get_device_name` (lines 179–195) against a device oracle
mapping each written frame to its 20-byte response: read the name length
from byte 4 of the response to `nameLenReq`; then for each
`i < length / 10` request `namePageReq i` and append bytes `[4..20)` of the
response; finally trim trailing NULs.  (`str::from_utf8` is the identity on
the byte content for valid UTF-8 names.) -/
def get_device_name (dev : Frame → Frame) : List Nat :=
  let len := (dev nameLenReq).getD 4 0
  trimTrailingZeros
    (((List.range (len / 10)).map (fun i => respPayload (dev (namePageReq i)))).flatten)

/-- The device-name read as claim C7 words it: identical, except that each
page contributes a 10-byte chunk of the name. -/
def get_device_name_claimed (dev : Frame → Frame) : List Nat :=
  let len := (dev nameLenReq).getD 4 0
  trimTrailingZeros
    (((List.range (len / 10)).map
      (fun i => ((dev (namePageReq i)).drop 4).take 10)).flatten)

/-- A concrete headset: name length 10, and the single page response carries
16 `'a'` bytes in its payload. -/
def nameDev : Frame → Frame :=
  fun req =>
    if req = nameLenReq then
      0x11 :: 0xff :: 0x03 :: 0x01 :: 10 :: List.replicate 15 0
    else if req = namePageReq 0 then
      0x11 :: 0xff :: 0x03 :: 0x11 :: List.replicate 16 0x61
    else
      List.replicate 20 0

/-- **C7 counterexample.**  `get_device_name` appends bytes `[4..20)` of
each page response — a 16-byte chunk per page, not a 10-byte one: on
`nameDev` the code yields a 16-character name while the claimed
10-bytes-per-page reading yields a 10-character one. -/
theorem get_device_name_chunk_size :
    get_device_name nameDev = List.replicate 16 0x61 ∧
    get_device_name_claimed nameDev = List.replicate 10 0x61 ∧
    get_device_name nameDev ≠ get_device_name_claimed nameDev := by
  refine ⟨by decide, by decide, by decide⟩

/-- Every branch of `nameDev` returns a 20-byte frame. -/
theorem nameDev_length : ∀ f, (nameDev f).length = 20 := by
  intro f
  unfold nameDev
  by_cases h1 : f = nameLenReq
  · simp [h1]
  · by_cases h2 : f = namePageReq 0
    · rw [if_neg h1, if_pos h2]
      decide
    · rw [if_neg h1, if_neg h2]
      simp

/-- **C7 (amended).**  The device-name read is paginated, keyed by the page
index in byte 4: one length request, then one request per page
`i < length / 10` carrying `i` in byte 4, each contributing the 16-byte
slice `[4..20)` of its response to the name, which is finally stripped of
trailing NULs. -/
theorem get_device_name_paginated (dev : Frame → Frame) (i : Nat)
    (hdev : ∀ f, (dev f).length = 20) :
    get_device_name dev =
      trimTrailingZeros
        (((List.range ((dev nameLenReq).getD 4 0 / 10)).map
          (fun j => (dev (namePageReq j)).drop 4)).flatten) ∧
    (namePageReq i).getD 4 0 = i ∧
    ((dev (namePageReq i)).drop 4).length = 16 := by
  have hpay : ∀ j, respPayload (dev (namePageReq j)) = (dev (namePageReq j)).drop 4 := by
    intro j
    unfold respPayload
    have hl : ((dev (namePageReq j)).drop 4).length = 16 := by
      rw [List.length_drop, hdev]
    exact List.take_of_length_le (le_of_eq hl)
  refine ⟨?_, ?_, ?_⟩
  · unfold get_device_name
    simp only [hpay]
  · rfl
  · rw [List.length_drop, hdev]

/-- Witness for the amended C7 at the concrete headset `nameDev`, page 0. -/
theorem get_device_name_paginated_witness :
    get_device_name nameDev =
      trimTrailingZeros
        (((List.range ((nameDev nameLenReq).getD 4 0 / 10)).map
          (fun j => (nameDev (namePageReq j)).drop 4)).flatten) ∧
    (namePageReq 0).getD 4 0 = 0 ∧
    ((nameDev (namePageReq 0)).drop 4).length = 16 :=
  get_device_name_paginated nameDev 0 nameDev_length

/-! ## Lock discipline (claim C2)

Transcriptions, in source order, of each component's atomic actions, to
track where the `Mutex<RequestsMap>` guard is held.  A guard's scope runs
from its `lock()` call to the end of the enclosing block. -/

/-- Atomic actions of a thread.  `lock`/`unlock` delimit a guard's scope;
`readDev`/`writeDev` are the blocking device I/O calls (`file.read`,
`file.write_all`). -/
inductive Action
  | lock
  | unlock
  | sleep
  | readDev
  | writeDev
  | mapIsEmpty
  | mapContains
  | mapInsert
  | mapRemove
  | chanSend
  | chanRecv
  deriving DecidableEq

/-- One listener iteration that reads a frame (lines 68–88): the poll sleep
(line 69); the guard acquired at line 71 lives to the end of the loop body
(line 88), so the `is_empty` check, the `file.read`, the `remove`, and the
`sender.send` all run under it. -/
def listenerIterActions : List Action :=
  [.sleep, .lock, .mapIsEmpty, .readDev, .mapRemove, .chanSend, .unlock]

/-- One spin-loop iteration that finds an entry present (lines 104–110):
the guard acquired at line 105 is dropped at the end of the iteration,
after the 100 ms sleep at line 109. -/
def spinIterActions : List Action := [.lock, .mapContains, .sleep, .unlock]

/-- The spin-loop iteration that `break`s (lines 104–108): the guard is
dropped on leaving the loop scope. -/
def spinBreakActions : List Action := [.lock, .mapContains, .unlock]

/-- The registration block (lines 115–121): a freshly acquired guard around
the single `insert`, dropped at the closing brace (the comment at line 114:
"Make sure we drop the lock before our write/read loop"). -/
def registerActions : List Action := [.lock, .mapInsert, .unlock]

/-- One iteration of the write/receive loop (lines 123–137): `write_all`,
then `recv_timeout`; no lock is held. -/
def sendIterActions : List Action := [.writeDev, .chanRecv]

/-- A full `raw_request` thread history: any number of spin iterations, the
breaking check, the registration, and the write/receive iterations. -/
def rawRequestActions : List Action :=
  spinIterActions ++ spinBreakActions ++ registerActions ++
    sendIterActions ++ sendIterActions

/-- Does the trace perform device I/O while the lock depth is positive?
(`d` = current depth.) -/
def ioWhileLocked : Nat → List Action → Bool
  | _, [] => false
  | d, .lock :: rest => ioWhileLocked (d + 1) rest
  | d, .unlock :: rest => ioWhileLocked (d - 1) rest
  | d, .readDev :: rest => decide (0 < d) || ioWhileLocked d rest
  | d, .writeDev :: rest => decide (0 < d) || ioWhileLocked d rest
  | d, .sleep :: rest => ioWhileLocked d rest
  | d, .mapIsEmpty :: rest => ioWhileLocked d rest
  | d, .mapContains :: rest => ioWhileLocked d rest
  | d, .mapInsert :: rest => ioWhileLocked d rest
  | d, .mapRemove :: rest => ioWhileLocked d rest
  | d, .chanSend :: rest => ioWhileLocked d rest
  | d, .chanRecv :: rest => ioWhileLocked d rest

/-- **C2 counterexample.**  The listener performs its `file.read` while
holding the correlation-table lock: the guard taken at line 71 is still
live at the read in line 74, so the lock *is* held across a blocking device
read. -/
theorem listener_reads_under_lock : ioWhileLocked 0 listenerIterActions = true := by
  decide

/-- **C2 (amended).**  The request engine (`raw_request`) never performs
device I/O with the lock held — its guards are dropped before the
write/read loop — but the listener performs its device read inside its lock
scope. -/
theorem lock_never_held_across_io_only_in_engine :
    ioWhileLocked 0 rawRequestActions = false ∧
    ioWhileLocked 0 listenerIterActions = true := by
  exact ⟨by decide, by decide⟩

end G933
